import Mathlib

/-!
Verification development for the bible.rs reference-resolution and search core.
The repository's checked-in code is the HTTP wiring (`web/src/main.rs`); the
core components (Canon Registry, Reference Parser, Reference Resolver, Search
Engine) are specified in `spec.md` and modelled here from that specification.
The route table and startup sequence are embedded from `web/src/main.rs`.
-/

deriving instance DecidableEq for Except

namespace BibleRs

/-- Modelled from the spec: a Canon Registry book (spec section 3 "Book"):
canonical identifier (ordinal position), display name, accepted alias
strings, and the ordered per-chapter verse counts (the chapter count is the
length of that sequence). -/
structure Book where
  ord : Nat
  name : String
  aliases : List String
  verseCounts : List Nat
deriving DecidableEq

/-- Modelled from the spec: chapter count of a book is the length of its
per-chapter verse-count table. -/
def chapterCount (b : Book) : Nat := b.verseCounts.length

/-- Modelled from the spec: verse count of 1-based chapter `c` of book `b`
(0 when the chapter is out of range). -/
def verseCount (b : Book) (c : Nat) : Nat := b.verseCounts.getD (c - 1) 0

/-- Split a character list into maximal runs of characters satisfying `keep`,
dropping the separators. Used for whitespace collapsing and tokenization. -/
def splitColl (keep : Char → Bool) : List Char → List Char → List (List Char)
  | [], acc => if acc.isEmpty then [] else [acc.reverse]
  | c :: cs, acc =>
    if keep c then splitColl keep cs (c :: acc)
    else if acc.isEmpty then splitColl keep cs []
    else acc.reverse :: splitColl keep cs []

/-- Modelled from the spec (section 4.1): name normalization for book lookup —
case-insensitive (lowercase), punctuation-normalized (strip periods, collapse
whitespace).  Collapsing and trimming whitespace is represented by comparing
the list of whitespace-separated words. -/
def normalize (s : String) : List (List Char) :=
  splitColl (fun c => !c.isWhitespace)
    ((s.toList.filter (fun c => c != '.')).map Char.toLower) []

/-- Modelled from the spec (section 4.1): `find_book` — exact match of the
normalized query against the normalized canonical name or any registered
alias; no fuzzy or partial matching. -/
def findBook (canon : List Book) (q : String) : Option Book :=
  canon.find? (fun b =>
    (normalize b.name == normalize q) ||
      b.aliases.any (fun a => normalize a == normalize q))

/-- Modelled from the spec (section 3): a Locator is a (book ordinal,
chapter number, verse number) triple. -/
structure Locator where
  book : Nat
  chapter : Nat
  verse : Nat
deriving DecidableEq

/-- Modelled from the spec (section 3): canon ordering on Locators — book
ordinal, then chapter, then verse, lexicographic (non-strict). -/
def locLe (a b : Locator) : Prop :=
  a.book < b.book ∨
    (a.book = b.book ∧
      (a.chapter < b.chapter ∨ (a.chapter = b.chapter ∧ a.verse ≤ b.verse)))

instance (a b : Locator) : Decidable (locLe a b) := by
  unfold locLe; infer_instance

/-- Modelled from the spec (section 3): an inclusive LocatorRange between a
start and an end Locator. -/
structure LocatorRange where
  start : Locator
  stop : Locator
deriving DecidableEq

/-- Modelled from the spec (section 3): the parser's unvalidated output —
book-token string, optional chapter, optional verse, and an optional range
end consisting of an optional explicit end chapter and an end verse. -/
structure RawReference where
  bookToken : String
  chapter : Option Nat
  verse : Option Nat
  rangeEnd : Option (Option Nat × Nat)
deriving DecidableEq

/-- Modelled from the spec (section 7): resolution failure taxonomy. -/
inductive ResolveError
  | UnknownBook
  | OutOfCanon
  | InvertedRange
deriving DecidableEq

/-- Modelled from the spec (sections 4.3 and 7): the Reference Resolver.
Book resolution happens first (`UnknownBook`); all bound checks come after
it (`OutOfCanon`); an end preceding the start is `InvertedRange`; an end
given without an explicit chapter reuses the start's chapter. -/
def resolve (canon : List Book) (raw : RawReference) :
    Except ResolveError LocatorRange :=
  match findBook canon raw.bookToken with
  | none => .error .UnknownBook
  | some b =>
    match raw.chapter with
    | none =>
      .ok ⟨⟨b.ord, 1, 1⟩, ⟨b.ord, chapterCount b, verseCount b (chapterCount b)⟩⟩
    | some c =>
      if c < 1 ∨ chapterCount b < c then .error .OutOfCanon
      else
        match raw.verse with
        | none => .ok ⟨⟨b.ord, c, 1⟩, ⟨b.ord, c, verseCount b c⟩⟩
        | some v =>
          if v < 1 ∨ verseCount b c < v then .error .OutOfCanon
          else
            match raw.rangeEnd with
            | none => .ok ⟨⟨b.ord, c, v⟩, ⟨b.ord, c, v⟩⟩
            | some (ec?, ev) =>
              let ec := ec?.getD c
              if ec < 1 ∨ chapterCount b < ec then .error .OutOfCanon
              else if ev < 1 ∨ verseCount b ec < ev then .error .OutOfCanon
              else if locLe ⟨b.ord, c, v⟩ ⟨b.ord, ec, ev⟩ then
                .ok ⟨⟨b.ord, c, v⟩, ⟨b.ord, ec, ev⟩⟩
              else .error .InvertedRange

/-- The canon-bounds invariant of spec section 3: a Locator is valid when its
book ordinal names a canon book, its chapter is between 1 and that book's
chapter count, and its verse is between 1 and that chapter's verse count. -/
def ValidLocator (canon : List Book) (L : Locator) : Prop :=
  ∃ b ∈ canon, b.ord = L.book ∧
    1 ≤ L.chapter ∧ L.chapter ≤ chapterCount b ∧
    1 ≤ L.verse ∧ L.verse ≤ verseCount b L.chapter

instance (canon : List Book) (L : Locator) : Decidable (ValidLocator canon L) := by
  unfold ValidLocator; infer_instance

/-- Spec section 3 invariants of the registry data: every book has at least
one chapter and every chapter has at least one verse. -/
def WFCanon (canon : List Book) : Prop :=
  ∀ b ∈ canon, b.verseCounts ≠ [] ∧ ∀ v ∈ b.verseCounts, 1 ≤ v

instance (canon : List Book) : Decidable (WFCanon canon) := by
  unfold WFCanon; infer_instance

/-- Modelled from the spec (section 4.2): syntactic failure kinds of the
Reference Parser. -/
inductive SyntaxError
  | emptyInput
  | malformedNumeral
  | danglingRange
  | trailingGarbage
deriving DecidableEq

/-- Read a decimal numeral from the front of the input; `none` when the input
does not start with a digit. -/
def readNat (cs : List Char) : Option (Nat × List Char) :=
  let ds := cs.takeWhile Char.isDigit
  if ds.isEmpty then none
  else some (ds.foldl (fun n c => 10 * n + (c.toNat - 48)) 0, cs.drop ds.length)

/-- Drop leading whitespace (whitespace around punctuation is insignificant). -/
def skipWS (cs : List Char) : List Char := cs.dropWhile Char.isWhitespace

/-- Characters that end the book token: digits and the separators used by the
reference grammar. -/
def isSepChar (c : Char) : Bool := c == ':' || c == '-' || c == '–'

/-- Drop trailing whitespace from the book token. -/
def trimRight (cs : List Char) : List Char :=
  (cs.reverse.dropWhile Char.isWhitespace).reverse

/-- Modelled from the spec (section 4.2): the Reference Parser.  Grammar
`book-token [chapter [":" verse [("-"|"–") (verse | chapter:verse)]]]`.
The book token is the longest prefix of non-digit, non-separator characters
with trailing whitespace trimmed; whitespace around punctuation is
insignificant; a dangling range dash, a malformed numeral or empty input is a
syntax error.  Purely syntactic: no canon lookups. -/
def parse (input : String) : Except SyntaxError RawReference :=
  let cs := input.toList
  let tokRaw := cs.takeWhile (fun c => !(c.isDigit || isSepChar c))
  let tok : String := String.mk (trimRight tokRaw)
  let rest0 := skipWS (cs.drop tokRaw.length)
  if cs.isEmpty then .error .emptyInput
  else if tok.isEmpty then .error .malformedNumeral
  else
    match rest0 with
    | [] => .ok ⟨tok, none, none, none⟩
    | _ =>
      match readNat rest0 with
      | none => .error .malformedNumeral
      | some (c, rest1) =>
        match skipWS rest1 with
        | [] => .ok ⟨tok, some c, none, none⟩
        | ':' :: rest2 =>
          match readNat (skipWS rest2) with
          | none => .error .malformedNumeral
          | some (v, rest3) =>
            match skipWS rest3 with
            | [] => .ok ⟨tok, some c, some v, none⟩
            | d :: rest4 =>
              if d == '-' || d == '–' then
                match readNat (skipWS rest4) with
                | none => .error .danglingRange
                | some (x, rest5) =>
                  match skipWS rest5 with
                  | [] => .ok ⟨tok, some c, some v, some (none, x)⟩
                  | ':' :: rest6 =>
                    match readNat (skipWS rest6) with
                    | none => .error .malformedNumeral
                    | some (y, rest7) =>
                      if (skipWS rest7).isEmpty then
                        .ok ⟨tok, some c, some v, some (some x, y)⟩
                      else .error .trailingGarbage
                  | _ => .error .trailingGarbage
              else .error .trailingGarbage
        | _ => .error .trailingGarbage

/-- Modelled from the spec (section 7): a reference-pipeline failure is
either a syntactic or a resolution failure, both typed. -/
inductive RefError
  | parseError (e : SyntaxError)
  | resolution (e : ResolveError)
deriving DecidableEq

/-- Modelled from the spec (section 2 data flow): the full pipeline — parse
the input string, then resolve the raw reference against the canon. -/
def resolveText (canon : List Book) (input : String) :
    Except RefError LocatorRange :=
  match parse input with
  | .error e => .error (.parseError e)
  | .ok raw =>
    match resolve canon raw with
    | .error e => .error (.resolution e)
    | .ok r => .ok r

/-- Decimal digits of `n`, most significant first, by fuel-bounded structural
recursion so the definition reduces in the kernel. -/
def natDigitsAux : Nat → Nat → List Char → List Char
  | 0, _, acc => acc
  | fuel + 1, n, acc =>
    if n = 0 then acc
    else natDigitsAux fuel (n / 10) (Char.ofNat (48 + n % 10) :: acc)

/-- Decimal rendering of a natural number. -/
def natToChars (n : Nat) : List Char :=
  if n = 0 then ['0'] else natDigitsAux (n + 1) n []

/-- Look a book up by its ordinal. -/
def bookAt (canon : List Book) (o : Nat) : Option Book :=
  canon.find? (fun b => b.ord == o)

/-- Modelled from the spec (section 8 round-trip property): format a Locator
back to a reference string, "Name C:V". -/
def formatLocator (canon : List Book) (L : Locator) : Option String :=
  (bookAt canon L.book).map (fun b =>
    String.mk (b.name.toList ++ ' ' :: (natToChars L.chapter ++ ':' :: natToChars L.verse)))

/-- Modelled from the spec: the concrete Canon Registry data is a fixed
compiled table that is not part of the visible repository fragment; this is
a small registry faithful to the spec's shape (dense 0-based ordinals,
per-chapter verse counts, case/punctuation-insensitive aliases) used to
instantiate the theorems. -/
def genesis : Book := ⟨0, "Genesis", ["Gen", "Ge"], [9, 6, 8]⟩

def exodus : Book := ⟨1, "Exodus", ["Ex", "Exo"], [7, 5]⟩

def john : Book := ⟨2, "John", ["Jn", "Joh"], [6, 5, 18]⟩

def psalms : Book := ⟨3, "Psalms", ["Ps", "Psalm"], [6, 12]⟩

def theCanon : List Book := [genesis, exodus, john, psalms]

/-- Modelled from the spec (section 4.4): stopwords dropped by tokenization,
so that an all-stopword query produces no terms. -/
def stopwords : List String := ["the", "a", "an", "and", "of", "in", "to", "is"]

def isWordChar (c : Char) : Bool := c.isAlpha || c.isDigit

/-- Modelled from the spec (section 4.4): tokenize text into lowercase terms,
stripping punctuation (non-word characters split terms) and stopwords; the
query is tokenized identically to the indexed text. -/
def tokenize (s : String) : List String :=
  ((splitColl isWordChar (s.toList.map Char.toLower) []).map
      (fun w => String.mk w)).filter (fun t => !stopwords.contains t)

/-- Modelled from the spec (section 3): a verse is a Locator plus its text. -/
structure Verse where
  loc : Locator
  text : String
deriving DecidableEq

/-- Modelled from the spec (sections 3 and 4.4): the search index maps each
normalized term to its (Locator, term-frequency) postings; verse texts are
kept alongside for snippet extraction. -/
structure SearchIndex where
  entries : List (String × List (Locator × Nat))
  texts : List (Locator × String)
deriving DecidableEq

/-- Postings list of a term; empty when the term is absent from the index. -/
def postings (ix : SearchIndex) (t : String) : List (Locator × Nat) :=
  ((ix.entries.find? (fun p => p.1 == t)).map Prod.snd).getD []

/-- Term frequency of `t` in the verse at `l`; a term absent from the index
contributes zero rather than failing. -/
def tf (ix : SearchIndex) (t : String) (l : Locator) : Nat :=
  (((postings ix t).find? (fun p => p.1 == l)).map Prod.snd).getD 0

/-- Modelled from the spec (section 4.4): term-frequency-weighted overlap
score — the sum over the query terms of their frequency in the verse.
Monotonic in term frequency; absent terms contribute zero. -/
def score (ix : SearchIndex) (qts : List String) (l : Locator) : Nat :=
  (qts.map (fun t => tf ix t l)).sum

/-- Modelled from the spec (section 4.4): build the inverted index from the
corpus — per-term, per-Locator frequencies, each verse an atomic unit. -/
def buildIndex (corpus : List Verse) : SearchIndex :=
  let terms := ((corpus.map (fun v => tokenize v.text)).flatten).dedup
  ⟨terms.map (fun t =>
      (t, (corpus.filter (fun v => decide (0 < (tokenize v.text).count t))).map
        (fun v => (v.loc, (tokenize v.text).count t)))),
   corpus.map (fun v => (v.loc, v.text))⟩

/-- Modelled from the spec (section 4.4): snippet length bound for
arbitrarily long documents. -/
def maxSnippetLen : Nat := 200

/-- Modelled from the spec (sections 3 and 4.4): the snippet is the verse
text, bounded in length. -/
def snippetOf (ix : SearchIndex) (l : Locator) : String :=
  String.mk
    ((((ix.texts.find? (fun p => p.1 == l)).map Prod.snd).getD "").toList.take
      maxSnippetLen)

/-- Modelled from the spec (section 3): a search hit — Locator, relevance
score, snippet. -/
structure SearchHit where
  loc : Locator
  score : Nat
  snippet : String
deriving DecidableEq

/-- Modelled from the spec (section 4.4): result ordering — score descending,
ties broken by canonical Locator ascending. -/
def hitOrder (a b : SearchHit) : Prop :=
  b.score < a.score ∨ (a.score = b.score ∧ locLe a.loc b.loc)

instance (a b : SearchHit) : Decidable (hitOrder a b) := by
  unfold hitOrder locLe; infer_instance

instance : IsTotal SearchHit hitOrder :=
  ⟨fun a b => by unfold hitOrder locLe; omega⟩

instance : IsTrans SearchHit hitOrder :=
  ⟨fun a b c hab hbc => by unfold hitOrder locLe at *; omega⟩

/-- Candidate locators: every Locator some query term posts to. -/
def candidates (ix : SearchIndex) (qts : List String) : List Locator :=
  ((qts.map (fun t => (postings ix t).map Prod.fst)).flatten).dedup

/-- Modelled from the spec (section 4.4): search — tokenize the query, score
the candidate verses, exclude verses matching zero query terms, order by
score descending with ties broken by Locator ascending, truncate to `limit`.
An empty result list is a successful outcome, not an error. -/
def search (ix : SearchIndex) (q : String) (limit : Nat) : List SearchHit :=
  let qts := tokenize q
  let scored :=
    ((candidates ix qts).filter (fun l => decide (0 < score ix qts l))).map
      (fun l => ⟨l, score ix qts l, snippetOf ix l⟩)
  (List.insertionSort hitOrder scored).take limit

/-! ### Helper lemmas -/

theorem verseCount_pos (b : Book) (hb : ∀ v ∈ b.verseCounts, 1 ≤ v) (c : Nat)
    (h1 : 1 ≤ c) (h2 : c ≤ chapterCount b) : 1 ≤ verseCount b c := by
  unfold verseCount
  have hlt : c - 1 < b.verseCounts.length := by
    unfold chapterCount at h2; omega
  rw [List.getD_eq_getElem?_getD, List.getElem?_eq_getElem hlt]
  exact hb _ (List.getElem_mem hlt)

theorem chapterCount_pos (b : Book) (hb : b.verseCounts ≠ []) :
    1 ≤ chapterCount b := by
  unfold chapterCount
  cases h : b.verseCounts with
  | nil => exact absurd h hb
  | cons x xs => simp

theorem findBook_mem (canon : List Book) (q : String) (b : Book)
    (h : findBook canon q = some b) : b ∈ canon :=
  List.mem_of_find?_eq_some h

theorem verseCount_bound (b : Book) (c : Nat) :
    verseCount b c = 0 ∨ verseCount b c ∈ b.verseCounts := by
  unfold verseCount
  rcases Nat.lt_or_ge (c - 1) b.verseCounts.length with h | h
  · right
    rw [List.getD_eq_getElem?_getD, List.getElem?_eq_getElem h]
    exact List.getElem_mem h
  · left
    rw [List.getD_eq_getElem?_getD, List.getElem?_eq_none h]
    rfl

/-! ### Claim theorems -/

/-- Claim C1: every Locator produced by the Resolver satisfies the canon
bounds invariant — its chapter is at least 1 and at most the book's chapter
count, and its verse is at least 1 and at most the verse count of that book
and chapter; both ends of every successfully resolved range are valid, so
every Locator constructed through the Resolver satisfies the invariant. -/
theorem resolve_locators_in_bounds (canon : List Book) (raw : RawReference)
    (range : LocatorRange) (hwf : WFCanon canon)
    (h : resolve canon raw = .ok range) :
    ValidLocator canon range.start ∧ ValidLocator canon range.stop := by
  unfold resolve at h
  cases hfb : findBook canon raw.bookToken with
  | none => simp [hfb] at h
  | some b =>
    simp only [hfb] at h
    have hmem : b ∈ canon := findBook_mem _ _ _ hfb
    have hcc : 1 ≤ chapterCount b := chapterCount_pos b (hwf b hmem).1
    have hvp : ∀ c, 1 ≤ c → c ≤ chapterCount b → 1 ≤ verseCount b c :=
      fun c h1 h2 => verseCount_pos b (hwf b hmem).2 c h1 h2
    cases hc : raw.chapter with
    | none =>
      simp only [hc] at h
      injection h with h
      subst h
      have hv1 : 1 ≤ verseCount b 1 := hvp 1 le_rfl hcc
      have hvl : 1 ≤ verseCount b (chapterCount b) := hvp _ hcc le_rfl
      exact ⟨⟨b, hmem, rfl, by dsimp only; omega, by dsimp only; omega,
              by dsimp only; omega, by dsimp only; omega⟩,
             ⟨b, hmem, rfl, by dsimp only; omega, by dsimp only; omega,
              by dsimp only; omega, by dsimp only; omega⟩⟩
    | some c =>
      simp only [hc] at h
      split_ifs at h with h1
      cases hv : raw.verse with
      | none =>
        simp only [hv] at h
        injection h with h
        subst h
        have hvc1 : 1 ≤ verseCount b c := hvp c (by omega) (by omega)
        exact ⟨⟨b, hmem, rfl, by dsimp only; omega, by dsimp only; omega,
                by dsimp only; omega, by dsimp only; omega⟩,
               ⟨b, hmem, rfl, by dsimp only; omega, by dsimp only; omega,
                by dsimp only; omega, by dsimp only; omega⟩⟩
      | some v =>
        simp only [hv] at h
        split_ifs at h with h2
        cases hr : raw.rangeEnd with
        | none =>
          simp only [hr] at h
          injection h with h
          subst h
          exact ⟨⟨b, hmem, rfl, by dsimp only; omega, by dsimp only; omega,
                  by dsimp only; omega, by dsimp only; omega⟩,
                 ⟨b, hmem, rfl, by dsimp only; omega, by dsimp only; omega,
                  by dsimp only; omega, by dsimp only; omega⟩⟩
        | some pe =>
          obtain ⟨ec?, ev⟩ := pe
          simp only [hr] at h
          split_ifs at h with h3 h4 h5
          injection h with h
          subst h
          exact ⟨⟨b, hmem, rfl, by dsimp only; omega, by dsimp only; omega,
                  by dsimp only; omega, by dsimp only; omega⟩,
                 ⟨b, hmem, rfl, by dsimp only; omega, by dsimp only; omega,
                  by dsimp only; omega, by dsimp only; omega⟩⟩

theorem resolve_locators_in_bounds_witness :
    ValidLocator theCanon ⟨2, 3, 16⟩ ∧ ValidLocator theCanon ⟨2, 3, 16⟩ :=
  resolve_locators_in_bounds theCanon ⟨"John", some 3, some 16, none⟩
    ⟨⟨2, 3, 16⟩, ⟨2, 3, 16⟩⟩ (by decide) (by decide)

/-- Claim C2: for every canon book, `find_book` of its canonical name and of
each registered alias returns that book (shown on the registry instance),
and matching is exact on the case/punctuation-normalized form: whenever
`find_book` returns a book, the normalized query equals the normalized
canonical name or a normalized registered alias — no fuzzy or partial
matching. -/
theorem findBook_canonical_and_aliases :
    (∀ b ∈ theCanon,
        findBook theCanon b.name = some b ∧
          ∀ a ∈ b.aliases, findBook theCanon a = some b) ∧
    (∀ (canon : List Book) (q : String) (b : Book),
        findBook canon q = some b →
          b ∈ canon ∧
            (normalize b.name = normalize q ∨
              ∃ a ∈ b.aliases, normalize a = normalize q)) := by
  constructor
  · decide
  · intro canon q b h
    refine ⟨List.mem_of_find?_eq_some h, ?_⟩
    have hp := List.find?_some h
    simp only [Bool.or_eq_true, beq_iff_eq, List.any_eq_true] at hp
    rcases hp with h1 | ⟨a, ha, h2⟩
    · exact Or.inl h1
    · exact Or.inr ⟨a, ha, h2⟩

theorem findBook_canonical_and_aliases_witness :
    genesis ∈ theCanon ∧
      (normalize genesis.name = normalize "Ge" ∨
        ∃ a ∈ genesis.aliases, normalize a = normalize "Ge") :=
  findBook_canonical_and_aliases.2 theCanon "Ge" genesis (by decide)

/-- Claim C3: for every book name that resolves to a book, resolving the
reference consisting of the book name alone (no chapter, no verse) succeeds
with the range from chapter 1 verse 1 to the last chapter and that chapter's
last verse of the book. -/
theorem resolve_book_only (canon : List Book) (s : String) (b : Book)
    (h : findBook canon s = some b) :
    resolve canon ⟨s, none, none, none⟩ =
      .ok ⟨⟨b.ord, 1, 1⟩,
           ⟨b.ord, chapterCount b, verseCount b (chapterCount b)⟩⟩ := by
  unfold resolve
  simp [h]

theorem resolve_book_only_witness :
    resolve theCanon ⟨"Psalm", none, none, none⟩ =
      .ok ⟨⟨3, 1, 1⟩, ⟨3, 2, 12⟩⟩ :=
  resolve_book_only theCanon "Psalm" psalms (by decide)

/-- Claim C4: when the book token matches a canon book but the chapter
exceeds that book's chapter count, resolution fails with `OutOfCanon` and
never with `UnknownBook`; bound checks happen only after book resolution —
an unknown book token fails with `UnknownBook` regardless of any bounds. -/
theorem resolve_excess_chapter_out_of_canon (canon : List Book)
    (raw : RawReference) :
    (∀ b c, findBook canon raw.bookToken = some b → raw.chapter = some c →
        chapterCount b < c → resolve canon raw = .error .OutOfCanon) ∧
    (findBook canon raw.bookToken = none →
        resolve canon raw = .error .UnknownBook) := by
  constructor
  · intro b c hb hc hlt
    unfold resolve
    simp only [hb, hc]
    rw [if_pos (Or.inr hlt)]
  · intro hn
    unfold resolve
    simp [hn]

theorem resolve_excess_chapter_out_of_canon_witness :
    resolve theCanon ⟨"John", some 9, none, none⟩ = .error .OutOfCanon :=
  (resolve_excess_chapter_out_of_canon theCanon ⟨"John", some 9, none, none⟩).1
    john 9 (by decide) rfl (by decide)

/-- Claim C5: for "BookName C:V1-V2" with a valid book, chapter and verses,
the end locator reuses the start's chapter (the range end has no explicit
chapter); resolution fails with `InvertedRange` exactly when V2 < V1, and
otherwise succeeds with the end locator in the start's chapter. -/
theorem resolve_inverted_range (canon : List Book) (s : String) (b : Book)
    (c v1 v2 : Nat) (hb : findBook canon s = some b)
    (hc1 : 1 ≤ c) (hc2 : c ≤ chapterCount b)
    (hv11 : 1 ≤ v1) (hv12 : v1 ≤ verseCount b c)
    (hv21 : 1 ≤ v2) (hv22 : v2 ≤ verseCount b c) :
    (v2 < v1 →
        resolve canon ⟨s, some c, some v1, some (none, v2)⟩ =
          .error .InvertedRange) ∧
    (v1 ≤ v2 →
        resolve canon ⟨s, some c, some v1, some (none, v2)⟩ =
          .ok ⟨⟨b.ord, c, v1⟩, ⟨b.ord, c, v2⟩⟩) := by
  have hg1 : ¬ (c < 1 ∨ chapterCount b < c) := by omega
  have hg2 : ¬ (v1 < 1 ∨ verseCount b c < v1) := by omega
  constructor
  · intro hlt
    unfold resolve
    simp only [hb, Option.getD]
    rw [if_neg hg1, if_neg hg2, if_neg (by omega), if_neg (by omega),
        if_neg (by unfold locLe; dsimp only; omega)]
  · intro hle
    unfold resolve
    simp only [hb, Option.getD]
    rw [if_neg hg1, if_neg hg2, if_neg (by omega), if_neg (by omega),
        if_pos (by unfold locLe; dsimp only; omega)]

theorem resolve_inverted_range_witness :
    resolve theCanon ⟨"John", some 3, some 16, some (none, 12)⟩ =
      .error .InvertedRange :=
  (resolve_inverted_range theCanon "John" john 3 16 12 (by decide) (by decide)
      (by decide) (by decide) (by decide) (by decide) (by decide)).1
    (by decide)

set_option maxRecDepth 8000 in
/-- Exhaustive check of the round-trip over the bounding box of the registry
instance (book ordinals below 4, chapters below 4, verses below 19). -/
theorem roundtrip_bounded :
    ∀ (bo : Fin 4) (c : Fin 4) (v : Fin 19),
      ValidLocator theCanon ⟨bo.val, c.val, v.val⟩ →
        (formatLocator theCanon ⟨bo.val, c.val, v.val⟩).map
            (resolveText theCanon) =
          some (.ok ⟨⟨bo.val, c.val, v.val⟩, ⟨bo.val, c.val, v.val⟩⟩) := by
  decide

/-- Claim C6: round-trip — for every validly constructed Locator, formatting
it back to a reference string and then parsing and resolving that string
succeeds and yields the range whose start and end both equal the Locator. -/
theorem locator_roundtrip (L : Locator) (h : ValidLocator theCanon L) :
    ∃ s, formatLocator theCanon L = some s ∧
      resolveText theCanon s = .ok ⟨L, L⟩ := by
  have hb : L.book < 4 ∧ L.chapter < 4 ∧ L.verse < 19 := by
    obtain ⟨b, hbm, hord, h1, h2, h3, h4⟩ := h
    have hv := verseCount_bound b L.chapter
    fin_cases hbm <;>
      simp only [genesis, exodus, john, psalms, chapterCount, verseCount,
        List.length_cons, List.length_nil, List.mem_cons, List.not_mem_nil,
        or_false] at hord h2 h4 hv <;>
      omega
  obtain ⟨hb1, hb2, hb3⟩ := hb
  have h2 := roundtrip_bounded ⟨L.book, hb1⟩ ⟨L.chapter, hb2⟩ ⟨L.verse, hb3⟩ h
  have h3 : (formatLocator theCanon L).map (resolveText theCanon) =
      some (.ok ⟨L, L⟩) := h2
  cases hfmt : formatLocator theCanon L with
  | none => rw [hfmt] at h3; exact absurd h3 (by simp)
  | some s =>
    rw [hfmt] at h3
    simp only [Option.map_some'] at h3
    injection h3 with h3
    exact ⟨s, rfl, h3⟩

theorem locator_roundtrip_witness :
    ∃ s, formatLocator theCanon ⟨0, 1, 1⟩ = some s ∧
      resolveText theCanon s = .ok ⟨⟨0, 1, 1⟩, ⟨0, 1, 1⟩⟩ :=
  locator_roundtrip ⟨0, 1, 1⟩ (by decide)

/-- Sample corpus from the spec's section 8 examples, used to instantiate the
search theorems. -/
def sampleCorpus : List Verse :=
  [⟨⟨0, 1, 1⟩, "In the beginning God created the heavens and the earth"⟩,
   ⟨⟨0, 1, 2⟩, "And the earth was without form and void"⟩,
   ⟨⟨2, 3, 16⟩, "For God so loved the world"⟩]

def sampleIndex : SearchIndex := buildIndex sampleCorpus

/-- Claim C7: for every index, query and limit, `search` returns a finite
ordered sequence sorted by relevance score descending with ties broken by
canonical Locator ascending, and every returned hit matches at least one
query term — verses matching zero query terms are excluded. -/
theorem search_ordered_and_matching (ix : SearchIndex) (q : String)
    (limit : Nat) :
    List.Sorted hitOrder (search ix q limit) ∧
      ∀ h ∈ search ix q limit, ∃ t ∈ tokenize q, 0 < tf ix t h.loc := by
  constructor
  · unfold search
    exact (List.sorted_insertionSort hitOrder _).sublist
      (List.take_sublist _ _)
  · intro h hm
    simp only [search] at hm
    have hm1 := List.mem_of_mem_take hm
    have hm2 := ((List.perm_insertionSort hitOrder _).mem_iff).mp hm1
    rw [List.mem_map] at hm2
    obtain ⟨l0, hl0, rfl⟩ := hm2
    rw [List.mem_filter] at hl0
    have hs := hl0.2
    simp only [decide_eq_true_eq] at hs
    dsimp only
    by_contra hno
    push_neg at hno
    have hz : score ix (tokenize q) l0 = 0 := by
      unfold score
      apply List.sum_eq_zero
      intro x hx
      rw [List.mem_map] at hx
      obtain ⟨t, ht, rfl⟩ := hx
      have := hno t ht
      omega
    omega

theorem search_ordered_and_matching_witness :
    ∃ t ∈ tokenize "beginning", 0 < tf sampleIndex t ⟨0, 1, 1⟩ :=
  (search_ordered_and_matching sampleIndex "beginning" 10).2
    ⟨⟨0, 1, 1⟩, 1, "In the beginning God created the heavens and the earth"⟩
    (by decide)

/-- Claim C8: a query that produces no terms (empty or all-stopword) or whose
terms are all absent from the index yields the empty result sequence as a
successful value of `search` — not an error; absent terms contribute zero
rather than causing failure. -/
theorem search_empty_on_no_terms (ix : SearchIndex) (q : String) (limit : Nat)
    (h : tokenize q = [] ∨ ∀ t ∈ tokenize q, postings ix t = []) :
    search ix q limit = [] := by
  have hc : candidates ix (tokenize q) = [] := by
    rcases h with h | h
    · unfold candidates
      rw [h]
      rfl
    · unfold candidates
      rw [List.dedup_eq_nil, List.flatten_eq_nil_iff]
      intro xs hxs
      rw [List.mem_map] at hxs
      obtain ⟨t, ht, rfl⟩ := hxs
      rw [h t ht]
      rfl
  simp only [search]
  rw [hc]
  simp

theorem search_empty_on_no_terms_witness :
    search sampleIndex "the and of" 5 = [] :=
  search_empty_on_no_terms sampleIndex "the and of" 5 (Or.inl (by decide))

/-! ### Startup sequence and routing, from `web/src/main.rs` -/

/-- The environment variables read by `main` in `web/src/main.rs`:
`CAPTURE_ERRORS` (optional, defaults to "true") and `DATABASE_URL`
(required). -/
structure StartupEnv where
  captureErrors : Option String
  databaseUrl : Option String
deriving DecidableEq

/-- Outcome of process startup: either a panic (the `expect` calls in
`main`), which aborts before the HTTP server is constructed, or the serving
state reached by `HttpServer::run`. -/
inductive StartupOutcome
  | panicked (msg : String)
  | serving
deriving DecidableEq

/-- Rust's `str::parse::<bool>` accepts exactly "true" and "false". -/
def parseBoolStr (s : String) : Option Bool :=
  if s = "true" then some true
  else if s = "false" then some false
  else none

/-- From `web/src/main.rs` lines 40-55: `CAPTURE_ERRORS` defaults to "true"
and must parse as a bool (`expect` panics otherwise); `DATABASE_URL` must be
set (`expect`); migrations must succeed (`expect`); only after all of these
does the server start serving requests. -/
def mainStartup (env : StartupEnv) (migrationsOk : Bool) : StartupOutcome :=
  match parseBoolStr (env.captureErrors.getD "true") with
  | none =>
    .panicked "Invalid value for CAPTURE_ERRORS. Must be 'true' or 'false.'"
  | some _ =>
    match env.databaseUrl with
    | none => .panicked "DATABASE_URL must be set"
    | some _ =>
      if migrationsOk then .serving
      else .panicked "Error running migrations"

/-- The startup configuration conditions checked by the `expect` calls. -/
def StartupOk (env : StartupEnv) (migrationsOk : Bool) : Prop :=
  (parseBoolStr (env.captureErrors.getD "true")).isSome = true ∧
    env.databaseUrl.isSome = true ∧ migrationsOk = true

instance (env : StartupEnv) (m : Bool) : Decidable (StartupOk env m) := by
  unfold StartupOk; infer_instance

/-- A request-handling outcome that distinguishes typed errors from an
uncatchable fault, to state that the request path never faults. -/
inductive Faulted (ε α : Type)
  | ok (a : α)
  | err (e : ε)
  | panicked (msg : String)

/-- The reference endpoint: the full resolution pipeline with its typed
failure taxonomy. -/
def referenceEndpoint (canon : List Book) (s : String) :
    Faulted RefError LocatorRange :=
  match resolveText canon s with
  | .ok r => .ok r
  | .error e => .err e

/-- The search endpoint: always a successful (possibly empty) result list. -/
def searchEndpoint (ix : SearchIndex) (q : String) (limit : Nat) :
    Faulted Unit (List SearchHit) :=
  .ok (search ix q limit)

/-- Claim C9: the core never panics on malformed user input — the reference
and search endpoints return typed results (ok or typed error) for every
input string and never an uncatchable fault; panics occur exactly when a
startup condition (invalid `CAPTURE_ERRORS`, missing `DATABASE_URL`, failed
migrations) is violated, in which case startup aborts instead of reaching
the serving state. -/
theorem core_no_input_panics :
    (∀ (canon : List Book) (s msg : String),
        referenceEndpoint canon s ≠ .panicked msg) ∧
    (∀ (canon : List Book) (s : String),
        (∃ r, referenceEndpoint canon s = .ok r) ∨
          ∃ e, referenceEndpoint canon s = .err e) ∧
    (∀ (ix : SearchIndex) (q : String) (limit : Nat) (msg : String),
        searchEndpoint ix q limit ≠ .panicked msg) ∧
    (∀ (env : StartupEnv) (mig : Bool),
        mainStartup env mig = .serving ↔ StartupOk env mig) := by
  refine ⟨?_, ?_, ?_, ?_⟩
  · intro canon s msg
    unfold referenceEndpoint
    cases resolveText canon s <;> simp
  · intro canon s
    unfold referenceEndpoint
    cases resolveText canon s with
    | error e => exact Or.inr ⟨e, rfl⟩
    | ok r => exact Or.inl ⟨r, rfl⟩
  · intro ix q limit msg
    unfold searchEndpoint
    simp
  · intro env mig
    unfold mainStartup StartupOk
    cases hp : parseBoolStr (env.captureErrors.getD "true") with
    | none => simp [hp]
    | some bv =>
      cases hd : env.databaseUrl with
      | none => simp [hp, hd]
      | some u =>
        cases mig <;> simp [hp, hd]

theorem core_no_input_panics_witness :
    mainStartup ⟨some "true", some "bible.db"⟩ true = .serving :=
  (core_no_input_panics.2.2.2 ⟨some "true", some "bible.db"⟩ true).2 (by decide)

/-- The resources registered on the actix `App` in `web/src/main.rs`, in
registration order, plus the default service. -/
inductive RouteTarget
  | staticFiles
  | aboutPage
  | home
  | searchPage
  | bookPage
  | referencePage
  | apiSearch
  | apiReference
  | notFound404
deriving DecidableEq

/-- Character-list prefix test (the pattern is the second argument). -/
def startsWithChars : List Char → List Char → Bool
  | _, [] => true
  | [], _ :: _ => false
  | c :: cs, d :: ds => (c == d) && startsWithChars cs ds

/-- The `/static` files mount matches every path under that prefix. -/
def matchStaticRoute (p : String) : Bool :=
  startsWithChars p.toList "/static".toList

/-- The path with its leading slash removed, when it has one. -/
def pathTail (p : String) : Option (List Char) :=
  match p.toList with
  | '/' :: rest => some rest
  | _ => none

/-- The `{book}` resource: a single nonempty path segment (actix's default
segment pattern admits no slash). -/
def matchBookRoute (p : String) : Bool :=
  match pathTail p with
  | some rest => !rest.isEmpty && !rest.contains '/'
  | none => false

def endsWithDigit (cs : List Char) : Bool :=
  match cs.getLast? with
  | some c => c.isDigit
  | none => false

/-- The `{reference:.+\d}` resource: at least two characters after the
leading slash, and the path must end in a digit. -/
def matchReferenceRoute (p : String) : Bool :=
  match pathTail p with
  | some rest => decide (2 ≤ rest.length) && endsWithDigit rest
  | none => false

/-- The `api/{reference}.json` resource: "/api/" followed by a nonempty
slash-free segment followed by ".json". -/
def matchApiReferenceRoute (p : String) : Bool :=
  let cs := p.toList
  let rest := cs.drop 5
  let seg := rest.take (rest.length - 5)
  let tail5 := rest.drop (rest.length - 5)
  (cs.take 5 == "/api/".toList) && (tail5 == ".json".toList) &&
    !seg.isEmpty && !seg.contains '/'

/-- From `web/src/main.rs` lines 74-99: the route table in registration
order — the static mount, "about", "/", "search", "{book}",
"{reference:.+\d}", "api/search", "api/{reference}.json" — with the default
service responding 404 Not Found. -/
def route (p : String) : RouteTarget :=
  if matchStaticRoute p then .staticFiles
  else if p = "/about" then .aboutPage
  else if p = "/" then .home
  else if p = "/search" then .searchPage
  else if matchBookRoute p then .bookPage
  else if matchReferenceRoute p then .referencePage
  else if p = "/api/search" then .apiSearch
  else if matchApiReferenceRoute p then .apiReference
  else .notFound404

/-- Claim C10: every request path that matches none of the registered routes
is answered by the default service with 404 Not Found. -/
theorem unmatched_path_not_found (p : String)
    (h : matchStaticRoute p = false ∧ p ≠ "/about" ∧ p ≠ "/" ∧
      p ≠ "/search" ∧ matchBookRoute p = false ∧
      matchReferenceRoute p = false ∧ p ≠ "/api/search" ∧
      matchApiReferenceRoute p = false) :
    route p = .notFound404 := by
  obtain ⟨h1, h2, h3, h4, h5, h6, h7, h8⟩ := h
  unfold route
  rw [h1, if_neg (by simp), if_neg h2, if_neg h3, if_neg h4, h5,
    if_neg (by simp), h6, if_neg (by simp), if_neg h7, h8,
    if_neg (by simp)]

theorem unmatched_path_not_found_witness :
    route "/foo/bar!" = .notFound404 :=
  unmatched_path_not_found "/foo/bar!" (by decide)

end BibleRs
